import Mathlib

/-!
# Verification of the Risala editor core

Shallow embedding of the two core components of the repository:

* `useLetterHistory` (undo/redo history buffer over `LetterState` snapshots),
  from the hook in the content-editable module; and
* `useContentEditableSync` (the contentEditable synchronization state machine),
  from the same module.

The JavaScript hooks are purely single-threaded and event-driven; we model the
history buffer as a pure state-passing structure, and the sync hook as a state
machine driven by timestamped events with explicit timer bookkeeping
(`setTimeout` callbacks become recorded fire times that are flushed in time
order).
-/

/-! ## LetterState snapshots (the `LetterState` interface) -/

structure LetterState where
  content : String
  date : String
  recipientTitle : String
  recipientName : String
  recipientOrganization : String
  subject : String
  signature : Option String
  closing : Option String
deriving DecidableEq, Repr

/-- Test-input constructor: a snapshot whose `content` is `c` and whose other
fields are empty/absent. -/
def snap (c : String) : LetterState :=
  ⟨c, "", "", "", "", "", none, none⟩

/-! ## JavaScript `Array.prototype.slice` helpers

`addState` uses `prev.slice(0, historyIndex + 1)` and
`newHistory.slice(-maxHistorySize)`.  We reproduce JS semantics exactly:
a negative end index counts from the end of the array, and `slice(-0)` is
`slice(0)` (the whole array). -/

/-- JS `l.slice(0, e)` where `e` may be negative (counts from the end);
results are clamped to the array bounds as in JS. -/
def jsSliceZero (e : Int) (l : List α) : List α :=
  if e < 0 then l.take ((l.length : Int) + e).toNat else l.take e.toNat

/-- JS `l.slice(-n)` for a non-negative count `n`: the last `min n l.length`
elements, except that `slice(-0) = slice(0)` returns the whole array. -/
def jsSliceLast (n : Nat) (l : List α) : List α :=
  if n = 0 then l else l.drop (l.length - n)

/-! ## HistoryBuffer (`useLetterHistory`) -/

/-- The state held by `useLetterHistory`: the `history` array and the
`historyIndex` cursor (initially `-1`). -/
structure HistoryBuffer where
  history : List LetterState
  historyIndex : Int
deriving DecidableEq, Repr

/-- The initial (and post-`reset`) buffer: `history = []`, `historyIndex = -1`. -/
def HistoryBuffer.empty : HistoryBuffer :=
  ⟨[], -1⟩

/-- `addState(state)`: truncate after the cursor with `slice(0, historyIndex+1)`,
push the new snapshot, trim to the last `maxHistorySize` entries with
`slice(-maxHistorySize)`, and point the cursor at the new snapshot. -/
def HistoryBuffer.addState (maxHistorySize : Nat) (b : HistoryBuffer)
    (state : LetterState) : HistoryBuffer :=
  let newHistory := jsSliceZero (b.historyIndex + 1) b.history ++ [state]
  let trimmedHistory := jsSliceLast maxHistorySize newHistory
  { history := trimmedHistory
    historyIndex := (trimmedHistory.length : Int) - 1 }

/-- `undo()`: if `historyIndex > 0`, decrement the cursor and return the
snapshot there; otherwise return `null` (modelled as `none`) and leave the
buffer unchanged.  The returned pair is (returned value, new buffer). -/
def HistoryBuffer.undo (b : HistoryBuffer) : Option LetterState × HistoryBuffer :=
  if b.historyIndex > 0 then
    (b.history.get? (b.historyIndex - 1).toNat,
     { b with historyIndex := b.historyIndex - 1 })
  else
    (none, b)

/-- `redo()`: if `historyIndex < history.length - 1`, increment the cursor and
return the snapshot there; otherwise return `null` and leave the buffer
unchanged. -/
def HistoryBuffer.redo (b : HistoryBuffer) : Option LetterState × HistoryBuffer :=
  if b.historyIndex < (b.history.length : Int) - 1 then
    (b.history.get? (b.historyIndex + 1).toNat,
     { b with historyIndex := b.historyIndex + 1 })
  else
    (none, b)

/-- `reset()`: clear the history and set the cursor to `-1`. -/
def HistoryBuffer.reset (_ : HistoryBuffer) : HistoryBuffer :=
  HistoryBuffer.empty

/-- `canUndo = historyIndex > 0`. -/
def HistoryBuffer.canUndo (b : HistoryBuffer) : Bool :=
  b.historyIndex > 0

/-- `canRedo = historyIndex < history.length - 1`. -/
def HistoryBuffer.canRedo (b : HistoryBuffer) : Bool :=
  b.historyIndex < (b.history.length : Int) - 1

/-- Fold a sequence of `addState` calls over a buffer. -/
def HistoryBuffer.pushAll (maxHistorySize : Nat) (b : HistoryBuffer)
    (l : List LetterState) : HistoryBuffer :=
  l.foldl (HistoryBuffer.addState maxHistorySize) b

/-- The structural invariant of the buffer with bound `N`. -/
def HistoryBuffer.Inv (N : Nat) (b : HistoryBuffer) : Prop :=
  -1 ≤ b.historyIndex ∧ b.historyIndex < (b.history.length : Int) ∧
  (b.historyIndex = -1 ↔ b.history = []) ∧ b.history.length ≤ N

instance (N : Nat) (b : HistoryBuffer) : Decidable (b.Inv N) := by
  unfold HistoryBuffer.Inv
  infer_instance


/-! ## EditSyncEngine (`useContentEditableSync`)

The hook keeps its state in refs: `syncStateRef` (`"idle" | "editing" |
"syncing"`), `lastSyncedContentRef`, `updateTimeoutRef` (the pending
external-update `setTimeout(..., 0)`), and `isInitializedRef`, next to the
contentEditable surface itself (text plus caret).  Timeouts are modelled by
recording their absolute fire times; `flushTimers` fires every expired
callback in fire-time order (ties broken by scheduling order, as in the
single-threaded event loop). -/

inductive SyncState where
  | idle
  | editing
  | syncing
deriving DecidableEq, Repr

/-- The whole mutable state of one `useContentEditableSync` instance plus the
editable surface it wraps.  `settleTimers` holds (in scheduling order) the
absolute fire times of the `setTimeout(() => syncStateRef.current = "idle",
1000)` callbacks from `handleContentChange` / `handlePaste`; none of these is
ever cleared by the hook.  `pendingUpdate` is the single
`updateTimeoutRef` `setTimeout(..., 0)` scheduled by the content effect,
recorded as (schedule time, captured `content`). -/
structure Engine where
  syncState : SyncState
  lastSynced : String
  surfaceText : String
  caret : Nat
  isInit : Bool
  settleTimers : List Nat
  pendingUpdate : Option (Nat × String)
deriving DecidableEq, Repr

/-- The settle window: `setTimeout(..., 1000)` in `handleContentChange` and
`handlePaste`. -/
def settleWindow : Nat := 1000

/-- The state right after the initialization effect ran with prop `content = c`:
surface text set to `c`, `lastSyncedContentRef = c`, initialized, mode `idle`,
no timers pending. -/
def Engine.start (c : String) : Engine :=
  { syncState := SyncState.idle
    lastSynced := c
    surfaceText := c
    caret := 0
    isInit := true
    settleTimers := []
    pendingUpdate := none }

/-- Fire every settle timeout with fire time `≤ t`.  Each such callback does
`syncStateRef.current = "idle"`; since all have the same effect, firing all
expired ones sets the mode to `idle` exactly when at least one has expired. -/
def fireDueSettles (t : Nat) (s : Engine) : Engine :=
  { s with
    syncState :=
      if s.settleTimers.any (fun u => decide (u ≤ t)) then SyncState.idle
      else s.syncState
    settleTimers := s.settleTimers.filter (fun u => decide (t < u)) }

/-- The body of the `setTimeout(..., 0)` scheduled by the content effect: if
the mode is still not `editing`, capture the caret offset, replace the
surface text with the captured `content`, update `lastSyncedContentRef`, and
restore the caret clamped to the new length (an empty new text has no child
node, so the caret can only sit at offset 0 = `min offset 0`). -/
def firePendingUpdate (c : String) (s : Engine) : Engine :=
  if s.syncState ≠ SyncState.editing then
    { s with
      surfaceText := c
      lastSynced := c
      caret := min s.caret c.length }
  else s

/-- Fire all expired timers up to (and including) time `t`, in fire-time
order.  A pending update scheduled at `tu` fires after the settle timeouts
due at or before `tu` (those were scheduled `settleWindow` earlier) and
before those due later. -/
def flushTimers (t : Nat) (s : Engine) : Engine :=
  match s.pendingUpdate with
  | some (tu, c) =>
    if tu ≤ t then
      fireDueSettles t
        (firePendingUpdate c { fireDueSettles tu s with pendingUpdate := none })
    else fireDueSettles t s
  | none => fireDueSettles t s

/-- `text.take pos ++ clip ++ text.drop pos`: the paste handler's plain-text
insertion at the caret (`range.deleteContents` on a collapsed caret deletes
nothing; `insertNode` places the clipboard text there). -/
def insertAt (text : String) (pos : Nat) (clip : String) : String :=
  text.take pos ++ clip ++ text.drop pos

/-- The externally triggered entry points of the hook. -/
inductive Event where
  /-- The browser applied a keystroke (surface text is now `newText`) and the
  `input` event invoked `handleContentChange`. -/
  | input (newText : String)
  /-- A `keydown` event invoked `handleKeyDown`. -/
  | keyDown
  /-- A `paste` event with plain-text clipboard data `clip` invoked
  `handlePaste`. -/
  | paste (clip : String)
  /-- The `content` prop changed to `c` and the sync effect ran
  (the `applyExternalUpdate` path). -/
  | setContent (c : String)
deriving DecidableEq, Repr

/-- Handle one event at time `t` (timers due before `t` are flushed by
`Engine.step`).

* `input`: `handleContentChange` sets the mode to `editing`, reads the
  surface text into `lastSyncedContentRef`, invokes the change callback, and
  schedules an (uncancellable) settle timeout `settleWindow` later.
* `keyDown`: `handleKeyDown` only sets the mode to `editing`.
* `paste`: `handlePaste` sets the mode to `editing`, inserts the clipboard
  text at the caret, updates `lastSyncedContentRef`, invokes the callback,
  and schedules a settle timeout.
* `setContent`: the effect first clears any pending `updateTimeoutRef`
  timeout, then — if the mode is not `editing`, the hook is initialized, and
  `c` differs from both `lastSyncedContentRef` and the surface text —
  schedules the update as a `setTimeout(..., 0)`. -/
def handleEvent (t : Nat) (s : Engine) : Event → Engine
  | Event.input newText =>
    { s with
      syncState := SyncState.editing
      surfaceText := newText
      lastSynced := newText
      settleTimers := s.settleTimers ++ [t + settleWindow] }
  | Event.keyDown =>
    { s with syncState := SyncState.editing }
  | Event.paste clip =>
    let newText := insertAt s.surfaceText s.caret clip
    { s with
      syncState := SyncState.editing
      surfaceText := newText
      caret := s.caret + clip.length
      lastSynced := newText
      settleTimers := s.settleTimers ++ [t + settleWindow] }
  | Event.setContent c =>
    let s0 := { s with pendingUpdate := none }
    if s0.syncState ≠ SyncState.editing ∧ s0.isInit = true ∧
        c ≠ s0.lastSynced ∧ c ≠ s0.surfaceText then
      { s0 with pendingUpdate := some (t, c) }
    else s0

/-- One step of the event loop: flush timers due up to time `t`, then run the
handler of the event arriving at `t`. -/
def Engine.step (s : Engine) (te : Nat × Event) : Engine :=
  handleEvent te.1 (flushTimers te.1 s) te.2

/-- Run a trace of timestamped events (times non-decreasing in intended use). -/
def Engine.run (s : Engine) (tr : List (Nat × Event)) : Engine :=
  tr.foldl Engine.step s

/-- The observable state at time `t` after a trace: all timers due by `t` have
fired. -/
def Engine.at (s : Engine) (t : Nat) : Engine :=
  flushTimers t s

/-- `applyExternalUpdate` as one observable operation: the sync effect runs at
time `t` with new prop value `x`, and its zero-delay timeout then fires. -/
def applyExternalUpdateNow (t : Nat) (x : String) (s : Engine) : Engine :=
  flushTimers t (handleEvent t s (Event.setContent x))

/-- Test input: an initialized idle engine showing `"hello"` with the caret at
offset 3. -/
def idleEngine : Engine :=
  { Engine.start "hello" with caret := 3 }

/-- Test input: an engine mid-edit — the user typed `"ab"` at time 0, so the
mode is `editing` with one settle timeout due at `settleWindow`. -/
def editingEngine : Engine :=
  { syncState := SyncState.editing
    lastSynced := "ab"
    surfaceText := "ab"
    caret := 2
    isInit := true
    settleTimers := [settleWindow]
    pendingUpdate := none }

/-- Test input: an engine stuck in `editing` after a bare `keydown` (no input
or paste followed, so no settle timeout was ever scheduled). -/
def stuckEngine : Engine :=
  { syncState := SyncState.editing
    lastSynced := "a"
    surfaceText := "a"
    caret := 0
    isInit := true
    settleTimers := []
    pendingUpdate := none }

-- sanity checks against the spec's scenario section
example :
    (HistoryBuffer.pushAll 2 HistoryBuffer.empty
      [snap "S1", snap "S2", snap "S3"]).history = [snap "S2", snap "S3"] := by
  decide

example :
    (HistoryBuffer.pushAll 2 HistoryBuffer.empty
      [snap "S1", snap "S2", snap "S3"]).historyIndex = 1 := by
  decide

example :
    ((HistoryBuffer.pushAll 2 HistoryBuffer.empty
      [snap "S1", snap "S2", snap "S3"]).undo).1 = some (snap "S2") := by
  decide

example :
    (((HistoryBuffer.pushAll 2 HistoryBuffer.empty
      [snap "S1", snap "S2", snap "S3"]).undo).2.undo).1 = none := by
  decide

-- engine sanity checks
example :
    ((Engine.start "a").run [(0, Event.setContent "b")]).pendingUpdate
      = some (0, "b") := by decide

example :
    (((Engine.start "a").run [(0, Event.setContent "b")]).at 0).surfaceText
      = "b" := by decide

example :
    (((Engine.start "a").run
        [(0, Event.input "ab"), (100, Event.setContent "x")]).at 2000).surfaceText
      = "ab" := by decide

-- two inputs at 0 and 500: the first (uncancelled) settle timeout fires at
-- 1000, only 500ms after the last input
example :
    (((Engine.start "a").run
        [(0, Event.input "b"), (500, Event.input "c")]).at 1000).syncState
      = SyncState.idle := by decide

example :
    (((Engine.start "a").run
        [(0, Event.input "b"), (500, Event.input "c")]).at 999).syncState
      = SyncState.editing := by decide

/-! ## EditSyncEngine lemmas -/

lemma fireDueSettles_surfaceText (t : Nat) (s : Engine) :
    (fireDueSettles t s).surfaceText = s.surfaceText := rfl

lemma fireDueSettles_lastSynced (t : Nat) (s : Engine) :
    (fireDueSettles t s).lastSynced = s.lastSynced := rfl

lemma fireDueSettles_caret (t : Nat) (s : Engine) :
    (fireDueSettles t s).caret = s.caret := rfl

lemma fireDueSettles_isInit (t : Nat) (s : Engine) :
    (fireDueSettles t s).isInit = s.isInit := rfl

lemma fireDueSettles_pendingUpdate (t : Nat) (s : Engine) :
    (fireDueSettles t s).pendingUpdate = s.pendingUpdate := rfl

lemma fireDueSettles_syncState (t : Nat) (s : Engine) :
    (fireDueSettles t s).syncState
      = if s.settleTimers.any (fun u => decide (u ≤ t)) then SyncState.idle
        else s.syncState := rfl

lemma fireDueSettles_settleTimers (t : Nat) (s : Engine) :
    (fireDueSettles t s).settleTimers
      = s.settleTimers.filter (fun u => decide (t < u)) := rfl

lemma fireDueSettles_syncState_ne_editing (t : Nat) (s : Engine)
    (h : s.syncState ≠ SyncState.editing) :
    (fireDueSettles t s).syncState ≠ SyncState.editing := by
  rw [fireDueSettles_syncState]
  split
  · exact fun hc => SyncState.noConfusion hc
  · exact h

lemma fireDueSettles_no_timers (t : Nat) (s : Engine)
    (h : s.settleTimers = []) : fireDueSettles t s = s := by
  cases s
  simp only at h
  subst h
  rfl

lemma firePendingUpdate_syncState (c : String) (s : Engine) :
    (firePendingUpdate c s).syncState = s.syncState := by
  unfold firePendingUpdate
  split <;> rfl

lemma firePendingUpdate_settleTimers (c : String) (s : Engine) :
    (firePendingUpdate c s).settleTimers = s.settleTimers := by
  unfold firePendingUpdate
  split <;> rfl

lemma firePendingUpdate_applies (c : String) (s : Engine)
    (h : s.syncState ≠ SyncState.editing) :
    firePendingUpdate c s
      = { s with surfaceText := c, lastSynced := c,
                 caret := min s.caret c.length } := by
  unfold firePendingUpdate
  rw [if_pos h]

lemma flushTimers_of_none (t : Nat) (s : Engine)
    (h : s.pendingUpdate = none) : flushTimers t s = fireDueSettles t s := by
  unfold flushTimers
  rw [h]

/-- The mode after flushing timers up to `t` is `idle` exactly when some
settle timeout was due by `t`, and unchanged otherwise: the pending external
update never touches the mode. -/
lemma flushTimers_syncState (t : Nat) (s : Engine) :
    (flushTimers t s).syncState
      = if s.settleTimers.any (fun u => decide (u ≤ t)) then SyncState.idle
        else s.syncState := by
  unfold flushTimers
  cases hp : s.pendingUpdate with
  | none => exact fireDueSettles_syncState t s
  | some p =>
    obtain ⟨tu, c⟩ := p
    show (if tu ≤ t then
        fireDueSettles t (firePendingUpdate c
          { fireDueSettles tu s with pendingUpdate := none })
      else fireDueSettles t s).syncState = _
    by_cases htu : tu ≤ t
    · rw [if_pos htu, fireDueSettles_syncState, firePendingUpdate_settleTimers,
        firePendingUpdate_syncState]
      show (if ((fireDueSettles tu s).settleTimers.any
              (fun u => decide (u ≤ t))) then SyncState.idle
            else (fireDueSettles tu s).syncState) = _
      rw [fireDueSettles_settleTimers, fireDueSettles_syncState]
      by_cases hbt : s.settleTimers.any (fun u => decide (u ≤ t)) = true
      · rw [hbt]
        rw [List.any_eq_true] at hbt
        obtain ⟨u0, hmem, hle⟩ := hbt
        have hle' : u0 ≤ t := of_decide_eq_true hle
        by_cases h1 : u0 ≤ tu
        · have hatu : s.settleTimers.any (fun u => decide (u ≤ tu)) = true := by
            rw [List.any_eq_true]
            exact ⟨u0, hmem, decide_eq_true h1⟩
          rw [hatu]
          split <;> simp
        · have hflt : ((s.settleTimers.filter (fun u => decide (t < u))).any
              (fun u => decide (u ≤ t))) = false := by
            rw [List.any_eq_false]
            intro u hu
            rw [List.mem_filter] at hu
            have := of_decide_eq_true hu.2
            simp
            omega
          have haf : ((s.settleTimers.filter (fun u => decide (tu < u))).any
              (fun u => decide (u ≤ t))) = true := by
            rw [List.any_eq_true]
            refine ⟨u0, ?_, decide_eq_true hle'⟩
            rw [List.mem_filter]
            exact ⟨hmem, decide_eq_true (by omega)⟩
          rw [haf]
          simp
      · have hbt' : s.settleTimers.any (fun u => decide (u ≤ t)) = false := by
          cases hb : s.settleTimers.any (fun u => decide (u ≤ t))
          · rfl
          · exact absurd hb hbt
        rw [hbt']
        have hnone : ∀ u ∈ s.settleTimers, ¬ u ≤ t := by
          intro u hu hle
          rw [List.any_eq_false] at hbt'
          exact absurd (decide_eq_true hle) (by simpa using hbt' u hu)
        have h1 : s.settleTimers.any (fun u => decide (u ≤ tu)) = false := by
          rw [List.any_eq_false]
          intro u hu
          have := hnone u hu
          simp
          omega
        have h2 : ((s.settleTimers.filter (fun u => decide (tu < u))).any
            (fun u => decide (u ≤ t))) = false := by
          rw [List.any_eq_false]
          intro u hu
          rw [List.mem_filter] at hu
          have := hnone u hu.1
          simp
          omega
        rw [h1, h2]
        simp
    · rw [if_neg htu]
      exact fireDueSettles_syncState t s

/-- Core behavior of an external update arriving while the mode is not
`editing` (and the surface is initialized): the surface text becomes the new
value, `lastSyncedContentRef` follows, and the caret is restored to the prior
offset clamped to the new length. -/
lemma applyExternalUpdateNow_applies_core (t : Nat) (x : String) (s : Engine)
    (hmode : s.syncState ≠ SyncState.editing) (hinit : s.isInit = true)
    (hx1 : x ≠ s.lastSynced) (hx2 : x ≠ s.surfaceText) :
    (applyExternalUpdateNow t x s).surfaceText = x ∧
    (applyExternalUpdateNow t x s).caret = min s.caret x.length ∧
    (applyExternalUpdateNow t x s).lastSynced = x := by
  have hred : applyExternalUpdateNow t x s
      = fireDueSettles t (firePendingUpdate x
          { fireDueSettles t { s with pendingUpdate := some (t, x) } with
              pendingUpdate := none }) := by
    unfold applyExternalUpdateNow
    simp only [handleEvent]
    rw [if_pos ⟨hmode, hinit, hx1, hx2⟩]
    unfold flushTimers
    show (if t ≤ t then
        fireDueSettles t (firePendingUpdate x
          { fireDueSettles t { s with pendingUpdate := some (t, x) } with
              pendingUpdate := none })
      else fireDueSettles t { s with pendingUpdate := some (t, x) }) = _
    rw [if_pos (Nat.le_refl t)]
  have hguard : ({ fireDueSettles t { s with pendingUpdate := some (t, x) } with
      pendingUpdate := none } : Engine).syncState ≠ SyncState.editing :=
    fireDueSettles_syncState_ne_editing t _ hmode
  rw [hred, fireDueSettles_surfaceText, fireDueSettles_caret,
    fireDueSettles_lastSynced, firePendingUpdate_applies x _ hguard]
  exact ⟨rfl, rfl, rfl⟩

lemma handleEvent_setContent_syncState (t : Nat) (s : Engine) (c : String) :
    (handleEvent t s (Event.setContent c)).syncState = s.syncState := by
  simp only [handleEvent]
  split <;> rfl

/-- One event-loop step never moves the mode into `syncing`: timer flushes
yield `idle` or leave the mode alone, `input`/`keyDown`/`paste` yield
`editing`, and the `setContent` effect leaves the mode alone. -/
lemma step_syncState_ne_syncing (s : Engine) (te : Nat × Event)
    (h : s.syncState ≠ SyncState.syncing) :
    (Engine.step s te).syncState ≠ SyncState.syncing := by
  obtain ⟨t, e⟩ := te
  have hflush : (flushTimers t s).syncState ≠ SyncState.syncing := by
    rw [flushTimers_syncState]
    split
    · exact fun hc => SyncState.noConfusion hc
    · exact h
  show (handleEvent t (flushTimers t s) e).syncState ≠ SyncState.syncing
  cases e with
  | input x => exact fun hc => SyncState.noConfusion hc
  | keyDown => exact fun hc => SyncState.noConfusion hc
  | paste x => exact fun hc => SyncState.noConfusion hc
  | setContent c =>
    rw [handleEvent_setContent_syncState]
    exact hflush

/-- No reachable state of the hook is ever in mode `syncing`. -/
lemma run_syncState_ne_syncing (tr : List (Nat × Event)) (s : Engine)
    (h : s.syncState ≠ SyncState.syncing) :
    (Engine.run s tr).syncState ≠ SyncState.syncing := by
  induction tr generalizing s with
  | nil => exact h
  | cons te tr ih =>
    show (Engine.run (Engine.step s te) tr).syncState ≠ SyncState.syncing
    exact ih (Engine.step s te) (step_syncState_ne_syncing s te h)

/-- In a state with mode `editing`, no pending settle timeout and no pending
external update, a `setContent` step changes nothing: the update is dropped. -/
lemma step_setContent_stuck (s : Engine) (t : Nat) (c : String)
    (hmode : s.syncState = SyncState.editing) (htim : s.settleTimers = [])
    (hpend : s.pendingUpdate = none) :
    Engine.step s (t, Event.setContent c) = s := by
  show handleEvent t (flushTimers t s) (Event.setContent c) = s
  rw [flushTimers_of_none t s hpend, fireDueSettles_no_timers t s htim]
  simp only [handleEvent]
  rw [if_neg (fun hc => hc.1 hmode)]
  show ({ s with pendingUpdate := none } : Engine) = s
  rw [← hpend]

/-- A stuck `editing` state absorbs any sequence of `setContent` events. -/
lemma run_setContent_only_stuck (tr : List (Nat × Event)) (s : Engine)
    (hmode : s.syncState = SyncState.editing) (htim : s.settleTimers = [])
    (hpend : s.pendingUpdate = none)
    (hall : ∀ e ∈ tr, ∃ c, e.2 = Event.setContent c) :
    Engine.run s tr = s := by
  induction tr with
  | nil => rfl
  | cons te tr ih =>
    obtain ⟨c, hc⟩ := hall te (List.mem_cons_self te tr)
    obtain ⟨t, e⟩ := te
    simp only at hc
    subst hc
    show Engine.run (Engine.step s (t, Event.setContent c)) tr = s
    rw [step_setContent_stuck s t c hmode htim hpend]
    exact ih (fun e he => hall e (List.mem_cons_of_mem _ he))

/-- With no timers and no pending update, flushing is the identity. -/
lemma flushTimers_id (t : Nat) (s : Engine) (htim : s.settleTimers = [])
    (hpend : s.pendingUpdate = none) : flushTimers t s = s := by
  rw [flushTimers_of_none t s hpend, fireDueSettles_no_timers t s htim]

/-! ## HistoryBuffer theorems -/

/-- After any `addState`, the cursor points at the last element. -/
lemma HistoryBuffer.addState_historyIndex (N : Nat) (b : HistoryBuffer)
    (s : LetterState) :
    (b.addState N s).historyIndex = ((b.addState N s).history.length : Int) - 1 :=
  rfl

/-- After any `addState`, `redo` is a no-op returning `none`. -/
lemma HistoryBuffer.redo_addState (N : Nat) (b : HistoryBuffer) (s : LetterState) :
    (b.addState N s).redo = (none, b.addState N s) := by
  unfold HistoryBuffer.redo
  rw [if_neg]
  rw [HistoryBuffer.addState_historyIndex]
  omega

/-- C8: `undo` returns `none` and leaves the buffer unchanged whenever the
cursor is at most 0 (including the empty buffer), `redo` likewise whenever
the cursor is at least `length - 1`; in particular after `reset` both return
`none`.  Both operations are total functions (they never throw). -/
theorem HistoryBuffer.undo_redo_noop_at_bounds (b : HistoryBuffer) :
    (b.historyIndex ≤ 0 → b.undo = (none, b)) ∧
    ((b.history.length : Int) - 1 ≤ b.historyIndex → b.redo = (none, b)) ∧
    b.reset.undo = (none, b.reset) ∧
    b.reset.redo = (none, b.reset) := by
  refine ⟨fun h => ?_, fun h => ?_, ?_, ?_⟩
  · unfold HistoryBuffer.undo
    rw [if_neg]
    omega
  · unfold HistoryBuffer.redo
    rw [if_neg]
    omega
  · rfl
  · rfl

/-- Witness for C8 at the concrete buffer `⟨[snap "a"], 0⟩`. -/
theorem HistoryBuffer.undo_redo_noop_at_bounds_witness :
    (⟨[snap "a"], 0⟩ : HistoryBuffer).undo = (none, ⟨[snap "a"], 0⟩) ∧
    (⟨[snap "a"], 0⟩ : HistoryBuffer).redo = (none, ⟨[snap "a"], 0⟩) := by
  have h := HistoryBuffer.undo_redo_noop_at_bounds ⟨[snap "a"], 0⟩
  exact ⟨h.1 (by decide), h.2.1 (by decide)⟩

/-- C4: whenever `undo` succeeds (`cursor > 0`, and the cursor is in range),
`undo` followed immediately by `redo` returns the exact snapshot that was
current before the `undo`, and the cursor is back at its pre-undo position
(in fact the whole buffer is unchanged). -/
theorem HistoryBuffer.undo_then_redo_restores (b : HistoryBuffer)
    (h1 : 0 < b.historyIndex) (h2 : b.historyIndex < (b.history.length : Int)) :
    (b.undo.2.redo).1 = b.history.get? b.historyIndex.toNat ∧
    (b.undo.2.redo).2 = b := by
  have hb : b.undo.2 = { b with historyIndex := b.historyIndex - 1 } := by
    unfold HistoryBuffer.undo
    rw [if_pos h1]
  rw [hb]
  unfold HistoryBuffer.redo
  rw [if_pos (show b.historyIndex - 1 < ((b.history.length : Int)) - 1 by omega)]
  have he : b.historyIndex - 1 + 1 = b.historyIndex := by omega
  constructor
  · show b.history.get? (b.historyIndex - 1 + 1).toNat = _
    rw [he]
  · show ({ b with historyIndex := b.historyIndex - 1 + 1 } : HistoryBuffer) = b
    rw [he]

/-- Witness for C4 at the buffer `⟨[snap "a", snap "b"], 1⟩`. -/
theorem HistoryBuffer.undo_then_redo_restores_witness :
    ((⟨[snap "a", snap "b"], 1⟩ : HistoryBuffer).undo.2.redo).1
        = some (snap "b") ∧
    ((⟨[snap "a", snap "b"], 1⟩ : HistoryBuffer).undo.2.redo).2
        = ⟨[snap "a", snap "b"], 1⟩ := by
  have h := HistoryBuffer.undo_then_redo_restores ⟨[snap "a", snap "b"], 1⟩
    (by decide) (by decide)
  exact ⟨by rw [h.1]; decide, h.2⟩

/-- C3: pushing a snapshot while the cursor is not at the end truncates the
history to the first `cursor + 1` entries before appending (the redo branch
is discarded), the new snapshot becomes the last entry, and a subsequent
`redo` returns `none` and changes nothing. -/
theorem HistoryBuffer.addState_discards_redo_branch (N : Nat) (b : HistoryBuffer)
    (s : LetterState) (hN : 1 ≤ N)
    (_hcur : b.historyIndex < (b.history.length : Int) - 1) :
    (b.addState N s).history
        = jsSliceLast N (jsSliceZero (b.historyIndex + 1) b.history ++ [s]) ∧
    (b.addState N s).history.getLast? = some s ∧
    (b.addState N s).redo = (none, b.addState N s) := by
  refine ⟨rfl, ?_, HistoryBuffer.redo_addState N b s⟩
  show (jsSliceLast N (jsSliceZero (b.historyIndex + 1) b.history ++ [s])).getLast?
      = some s
  unfold jsSliceLast
  rw [if_neg (by omega)]
  set l := jsSliceZero (b.historyIndex + 1) b.history with hl
  rw [List.drop_append_of_le_length (by simp; omega), List.getLast?_concat]

lemma jsSliceLast_length (n : Nat) (l : List α) (hn : 1 ≤ n) :
    (jsSliceLast n l).length = l.length - (l.length - n) := by
  unfold jsSliceLast
  rw [if_neg (by omega), List.length_drop]

lemma addState_history_length (N : Nat) (b : HistoryBuffer) (s : LetterState)
    (hN : 1 ≤ N) :
    (b.addState N s).history.length
      = (jsSliceZero (b.historyIndex + 1) b.history ++ [s]).length
          - ((jsSliceZero (b.historyIndex + 1) b.history ++ [s]).length - N) := by
  show (jsSliceLast N (jsSliceZero (b.historyIndex + 1) b.history ++ [s])).length = _
  rw [jsSliceLast_length N _ hN]

lemma jsSliceZero_length_le (e : Int) (l : List α) :
    (jsSliceZero e l).length ≤ l.length := by
  unfold jsSliceZero
  split <;> simp

/-- C7: `addState`, `undo`, `redo` and `reset` all preserve the invariant
`-1 ≤ cursor < length` (with `cursor = -1` exactly for the empty buffer) and
`length ≤ N`, and the cursor points at the last element immediately after any
`addState`. -/
theorem HistoryBuffer.ops_preserve_inv (N : Nat) (b : HistoryBuffer)
    (s : LetterState) (hN : 1 ≤ N) (h : b.Inv N) :
    (b.addState N s).Inv N ∧ (b.undo.2).Inv N ∧ (b.redo.2).Inv N ∧
    (b.reset).Inv N ∧
    (b.addState N s).historyIndex = ((b.addState N s).history.length : Int) - 1 := by
  obtain ⟨hlo, hhi, hiff, hlen⟩ := h
  have hslice := jsSliceZero_length_le (b.historyIndex + 1) b.history
  have haddlen := addState_history_length N b s hN
  rw [List.length_append, List.length_cons, List.length_nil] at haddlen
  refine ⟨?_, ?_, ?_, ?_, HistoryBuffer.addState_historyIndex N b s⟩
  · have hidx := HistoryBuffer.addState_historyIndex N b s
    have hpos : 1 ≤ (b.addState N s).history.length := by omega
    refine ⟨by omega, by omega, ?_, by omega⟩
    constructor
    · intro hc
      omega
    · intro hc
      rw [hc] at hpos
      simp at hpos
  · unfold HistoryBuffer.undo
    by_cases hgt : b.historyIndex > 0
    · rw [if_pos hgt]
      show HistoryBuffer.Inv N { b with historyIndex := b.historyIndex - 1 }
      refine ⟨show -1 ≤ b.historyIndex - 1 by omega,
        show b.historyIndex - 1 < (b.history.length : Int) by omega, ?_, hlen⟩
      show b.historyIndex - 1 = -1 ↔ b.history = []
      constructor
      · intro hc
        omega
      · intro hc
        rw [hc] at hhi
        simp at hhi
        omega
    · rw [if_neg hgt]
      exact ⟨hlo, hhi, hiff, hlen⟩
  · unfold HistoryBuffer.redo
    by_cases hlt : b.historyIndex < (b.history.length : Int) - 1
    · rw [if_pos hlt]
      show HistoryBuffer.Inv N { b with historyIndex := b.historyIndex + 1 }
      refine ⟨show -1 ≤ b.historyIndex + 1 by omega,
        show b.historyIndex + 1 < (b.history.length : Int) by omega, ?_, hlen⟩
      show b.historyIndex + 1 = -1 ↔ b.history = []
      constructor
      · intro hc
        omega
      · intro hc
        rw [hc] at hlt
        simp at hlt
        omega
    · rw [if_neg hlt]
      exact ⟨hlo, hhi, hiff, hlen⟩
  · show HistoryBuffer.Inv N HistoryBuffer.empty
    exact ⟨by decide, by decide, by decide, Nat.zero_le N⟩

/-- Witness for C7 at `N = 5`, the buffer `[a, b]` with cursor `1`. -/
theorem HistoryBuffer.ops_preserve_inv_witness :
    ((⟨[snap "a", snap "b"], 1⟩ : HistoryBuffer).addState 5 (snap "c")).Inv 5 ∧
    ((⟨[snap "a", snap "b"], 1⟩ : HistoryBuffer).undo.2).Inv 5 ∧
    ((⟨[snap "a", snap "b"], 1⟩ : HistoryBuffer).redo.2).Inv 5 ∧
    ((⟨[snap "a", snap "b"], 1⟩ : HistoryBuffer).reset).Inv 5 ∧
    ((⟨[snap "a", snap "b"], 1⟩ : HistoryBuffer).addState 5 (snap "c")).historyIndex
      = (((⟨[snap "a", snap "b"], 1⟩ : HistoryBuffer).addState 5
          (snap "c")).history.length : Int) - 1 :=
  HistoryBuffer.ops_preserve_inv 5 ⟨[snap "a", snap "b"], 1⟩ (snap "c")
    (by decide) (by decide)

/-- Witness for C3: buffer `[a, b, c]` with cursor rewound to 0, push `d`. -/
theorem HistoryBuffer.addState_discards_redo_branch_witness :
    ((⟨[snap "a", snap "b", snap "c"], 0⟩ : HistoryBuffer).addState 5
        (snap "d")).history
      = jsSliceLast 5 (jsSliceZero 1 [snap "a", snap "b", snap "c"]
          ++ [snap "d"]) ∧
    ((⟨[snap "a", snap "b", snap "c"], 0⟩ : HistoryBuffer).addState 5
        (snap "d")).history.getLast? = some (snap "d") ∧
    ((⟨[snap "a", snap "b", snap "c"], 0⟩ : HistoryBuffer).addState 5
        (snap "d")).redo
      = (none, (⟨[snap "a", snap "b", snap "c"], 0⟩ : HistoryBuffer).addState 5
          (snap "d")) :=
  HistoryBuffer.addState_discards_redo_branch 5 ⟨[snap "a", snap "b", snap "c"], 0⟩
    (snap "d") (by decide) (by decide)

/-! ### C1: bounded retention of the most recent snapshots -/

lemma jsSliceLast_append_single (N : Nat) (hN : 1 ≤ N) (l : List α) (s : α) :
    jsSliceLast N (jsSliceLast N l ++ [s]) = jsSliceLast N (l ++ [s]) := by
  unfold jsSliceLast
  rw [if_neg (by omega), if_neg (by omega), if_neg (by omega)]
  by_cases h : l.length ≤ N
  · rw [Nat.sub_eq_zero_of_le h, List.drop_zero]
  · have hlen : (l.drop (l.length - N)).length = N := by
      rw [List.length_drop]
      omega
    rw [List.length_append, hlen, List.length_cons, List.length_nil,
      List.drop_append_of_le_length (by omega),
      List.drop_drop, List.length_append, List.length_cons, List.length_nil,
      List.drop_append_of_le_length (by omega)]
    congr 2
    omega

/-- Folding `addState` over a list of snapshots starting from the empty buffer
yields exactly the last `N` of them, with the cursor on the last one. -/
lemma HistoryBuffer.pushAll_empty_eq (N : Nat) (hN : 1 ≤ N)
    (l : List LetterState) :
    HistoryBuffer.pushAll N HistoryBuffer.empty l
      = ⟨jsSliceLast N l, ((jsSliceLast N l).length : Int) - 1⟩ := by
  induction l using List.reverseRecOn with
  | nil =>
    show HistoryBuffer.empty = _
    unfold jsSliceLast
    rw [if_neg (by omega), List.drop_nil]
    decide
  | append_singleton l s ih =>
    show HistoryBuffer.pushAll N HistoryBuffer.empty (l ++ [s]) = _
    unfold HistoryBuffer.pushAll at ih ⊢
    rw [List.foldl_append, ih]
    show HistoryBuffer.addState N ⟨jsSliceLast N l, _⟩ s = _
    unfold HistoryBuffer.addState
    have htake : jsSliceZero (((jsSliceLast N l).length : Int) - 1 + 1)
        (jsSliceLast N l) = jsSliceLast N l := by
      unfold jsSliceZero
      rw [if_neg (by omega)]
      have : (((jsSliceLast N l).length : Int) - 1 + 1).toNat
          = (jsSliceLast N l).length := by omega
      rw [this, List.take_length]
    rw [htake]
    show ({ history := jsSliceLast N (jsSliceLast N l ++ [s]),
            historyIndex :=
              ((jsSliceLast N (jsSliceLast N l ++ [s])).length : Int) - 1 }
          : HistoryBuffer) = _
    rw [jsSliceLast_append_single N hN]

/-- C1: for every sequence of more than `N` `addState` calls (bound `N ≥ 1`,
default 5) starting from the empty buffer, the buffer afterwards holds
exactly the `N` most recently pushed snapshots in push order, the cursor
points at the last of them, and `canUndo`/`canRedo` are exactly the cursor
tests `cursor > 0` and `cursor < length - 1` (so `canRedo` is `false`). -/
theorem HistoryBuffer.pushAll_retains_last_N (N : Nat) (l : List LetterState)
    (hN : 1 ≤ N) (hlen : N < l.length) :
    (HistoryBuffer.pushAll N HistoryBuffer.empty l).history
        = l.drop (l.length - N) ∧
    (HistoryBuffer.pushAll N HistoryBuffer.empty l).history.length = N ∧
    (HistoryBuffer.pushAll N HistoryBuffer.empty l).historyIndex
        = (N : Int) - 1 ∧
    (HistoryBuffer.pushAll N HistoryBuffer.empty l).canUndo
        = decide (0 < (HistoryBuffer.pushAll N HistoryBuffer.empty l).historyIndex) ∧
    (HistoryBuffer.pushAll N HistoryBuffer.empty l).canRedo = false := by
  rw [HistoryBuffer.pushAll_empty_eq N hN l]
  have hslice : jsSliceLast N l = l.drop (l.length - N) := by
    unfold jsSliceLast
    rw [if_neg (by omega)]
  have hlength : (jsSliceLast N l).length = N := by
    rw [hslice, List.length_drop]
    omega
  refine ⟨hslice, hlength, by rw [hlength], rfl, ?_⟩
  show decide ((((jsSliceLast N l).length : Int) - 1)
      < ((jsSliceLast N l).length : Int) - 1) = false
  simp

/-- Witness for C1 at `N = 2` with the three snapshots `a, b, c`. -/
theorem HistoryBuffer.pushAll_retains_last_N_witness :
    (HistoryBuffer.pushAll 2 HistoryBuffer.empty
        [snap "a", snap "b", snap "c"]).history
      = [snap "a", snap "b", snap "c"].drop (3 - 2) ∧
    (HistoryBuffer.pushAll 2 HistoryBuffer.empty
        [snap "a", snap "b", snap "c"]).history.length = 2 ∧
    (HistoryBuffer.pushAll 2 HistoryBuffer.empty
        [snap "a", snap "b", snap "c"]).historyIndex = (2 : Int) - 1 ∧
    (HistoryBuffer.pushAll 2 HistoryBuffer.empty
        [snap "a", snap "b", snap "c"]).canUndo
      = decide (0 < (HistoryBuffer.pushAll 2 HistoryBuffer.empty
          [snap "a", snap "b", snap "c"]).historyIndex) ∧
    (HistoryBuffer.pushAll 2 HistoryBuffer.empty
        [snap "a", snap "b", snap "c"]).canRedo = false :=
  HistoryBuffer.pushAll_retains_last_N 2 [snap "a", snap "b", snap "c"]
    (by decide) (by decide)

/-! ## EditSyncEngine theorems -/

/-- C5: an external update `x` (differing from both the last-committed text
and the current surface text) arriving while the mode is `idle` on an
initialized surface sets the surface text to `x` and restores the caret to
`min priorCaretOffset (length x)`. -/
theorem applyExternal_idle_sets_text_and_caret (t : Nat) (x : String)
    (s : Engine) (hmode : s.syncState = SyncState.idle) (hinit : s.isInit = true)
    (hx1 : x ≠ s.lastSynced) (hx2 : x ≠ s.surfaceText) :
    (applyExternalUpdateNow t x s).surfaceText = x ∧
    (applyExternalUpdateNow t x s).caret = min s.caret x.length := by
  have h := applyExternalUpdateNow_applies_core t x s
    (by rw [hmode]; exact fun hc => SyncState.noConfusion hc) hinit hx1 hx2
  exact ⟨h.1, h.2.1⟩

/-- Witness for C5: update `"hi"` on an idle surface showing `"hello"` with
caret at 3 — the text becomes `"hi"` and the caret clamps to 2. -/
theorem applyExternal_idle_sets_text_and_caret_witness :
    (applyExternalUpdateNow 7 "hi" idleEngine).surfaceText = "hi" ∧
    (applyExternalUpdateNow 7 "hi" idleEngine).caret = 2 := by
  have h := applyExternal_idle_sets_text_and_caret 7 "hi" idleEngine rfl rfl
    (by decide) (by decide)
  refine ⟨h.1, ?_⟩
  rw [h.2]
  decide

/-- C6: an external update arriving while the mode is `editing` (the settle
window has not yet elapsed) leaves the surface text untouched and the mode
`editing`; once a settle timeout has fired with no further input, the mode
is `idle` and a subsequent external update does set the surface text. -/
theorem applyExternal_editing_defers_then_applies (s : Engine)
    (td ta tf : Nat) (x y : String)
    (hmode : s.syncState = SyncState.editing) (hinit : s.isInit = true)
    (hnoexp : s.settleTimers.any (fun u => decide (u ≤ td)) = false) :
    (applyExternalUpdateNow td y s).surfaceText = s.surfaceText ∧
    (applyExternalUpdateNow td y s).syncState = SyncState.editing ∧
    (s.pendingUpdate = none → tf ∈ s.settleTimers → tf ≤ ta →
      x ≠ s.lastSynced → x ≠ s.surfaceText →
      (applyExternalUpdateNow ta x (s.at ta)).surfaceText = x) := by
  have hred : applyExternalUpdateNow td y s
      = fireDueSettles td { s with pendingUpdate := none } := by
    unfold applyExternalUpdateNow
    simp only [handleEvent]
    rw [if_neg (fun hc => hc.1 hmode)]
    exact flushTimers_of_none td { s with pendingUpdate := none } rfl
  refine ⟨?_, ?_, ?_⟩
  · rw [hred, fireDueSettles_surfaceText]
  · rw [hred, fireDueSettles_syncState]
    show (if s.settleTimers.any (fun u => decide (u ≤ td)) then SyncState.idle
      else s.syncState) = SyncState.editing
    rw [hnoexp]
    simp [hmode]
  · intro hpend htf hta hx1 hx2
    have hat : s.at ta = fireDueSettles ta s := flushTimers_of_none ta s hpend
    have hany : s.settleTimers.any (fun u => decide (u ≤ ta)) = true :=
      List.any_eq_true.mpr ⟨tf, htf, decide_eq_true hta⟩
    have hidle : (s.at ta).syncState = SyncState.idle := by
      rw [hat, fireDueSettles_syncState, hany]
      simp
    have h := applyExternalUpdateNow_applies_core ta x (s.at ta)
      (by rw [hidle]; exact fun hc => SyncState.noConfusion hc)
      (by rw [hat, fireDueSettles_isInit]; exact hinit)
      (by rw [hat, fireDueSettles_lastSynced]; exact hx1)
      (by rw [hat, fireDueSettles_surfaceText]; exact hx2)
    exact h.1

/-- Witness for C6: a deferred update at 500 ms on `editingEngine` leaves the
text `"ab"` and the mode `editing`; after the settle timeout at 1000 ms, an
update to `"q"` at 1500 ms applies. -/
theorem applyExternal_editing_defers_then_applies_witness :
    (applyExternalUpdateNow 500 "zz" editingEngine).surfaceText = "ab" ∧
    (applyExternalUpdateNow 500 "zz" editingEngine).syncState
      = SyncState.editing ∧
    (applyExternalUpdateNow 1500 "q" (editingEngine.at 1500)).surfaceText
      = "q" := by
  have h := applyExternal_editing_defers_then_applies editingEngine 500 1500
    settleWindow "q" "zz" rfl rfl (by decide)
  exact ⟨h.1, h.2.1, h.2.2 rfl (by decide) (by decide) (by decide) (by decide)⟩

/-- C2 as stated is refuted: with user inputs at times 0 and 500, the settle
timeout scheduled by the first input is never cancelled and fires at 1000,
so the mode is already back to `idle` only 500 ms after the last input call,
strictly sooner than the settle window after the last call. -/
theorem input_debounce_counterexample :
    (((Engine.start "a").run
        [(0, Event.input "b"), (500, Event.input "c")]).at 1000).syncState
      = SyncState.idle ∧ (1000 : Nat) < 500 + settleWindow := by
  decide

/-- C2 (amended): `handleContentChange` sets the mode to `editing`
synchronously on the same call and appends a new settle timeout at
`t + 1000 ms` without cancelling earlier ones; the mode returns to `idle` as
soon as the earliest pending settle timeout expires (possibly sooner than
1000 ms after the last input call), and is unchanged while none has
expired. -/
theorem input_editing_sync_and_uncancelled_timers (s : Engine) (t : Nat)
    (x : String) :
    (handleEvent t s (Event.input x)).syncState = SyncState.editing ∧
    (handleEvent t s (Event.input x)).settleTimers
        = s.settleTimers ++ [t + settleWindow] ∧
    (s.settleTimers.any (fun u => decide (u ≤ t)) = true →
      (s.at t).syncState = SyncState.idle) ∧
    (s.settleTimers.any (fun u => decide (u ≤ t)) = false →
      (s.at t).syncState = s.syncState) := by
  refine ⟨rfl, rfl, ?_, ?_⟩
  · intro h
    show (flushTimers t s).syncState = _
    rw [flushTimers_syncState, h]
    simp
  · intro h
    show (flushTimers t s).syncState = _
    rw [flushTimers_syncState, h]
    simp

/-- Witness for amended C2: an input at time 0 on a fresh engine is
synchronously `editing` with one timeout at 1000; on `editingEngine` the
pending timeout has expired by `settleWindow`, so the mode is `idle` there. -/
theorem input_editing_sync_and_uncancelled_timers_witness :
    (handleEvent 0 (Engine.start "a") (Event.input "b")).syncState
      = SyncState.editing ∧
    (handleEvent 0 (Engine.start "a") (Event.input "b")).settleTimers
      = [0 + settleWindow] ∧
    (editingEngine.at settleWindow).syncState = SyncState.idle ∧
    ((Engine.start "a").at 0).syncState = SyncState.idle := by
  have h1 := input_editing_sync_and_uncancelled_timers (Engine.start "a") 0 "b"
  have h2 := input_editing_sync_and_uncancelled_timers editingEngine
    settleWindow "b"
  exact ⟨h1.1, h1.2.1, h2.2.2.1 (by decide), h1.2.2.2 (by decide)⟩

set_option maxRecDepth 40000 in
/-- C9 as stated is refuted: `syncing` is never assigned.  A concrete
`applyExternalUpdate` that does apply (`"a"` → `"b"` at time 0) has mode
`idle` before the effect runs, `idle` immediately after the effect handler,
and `idle` at every observable instant from 0 to 2000 while and after the
zero-delay timeout applies the update; the mode is never `syncing`. -/
theorem applyExternal_never_syncing_counterexample :
    ((Engine.start "a").at 0).syncState = SyncState.idle ∧
    (handleEvent 0 (Engine.start "a") (Event.setContent "b")).syncState
      = SyncState.idle ∧
    (((Engine.start "a").run [(0, Event.setContent "b")]).at 0).surfaceText
      = "b" ∧
    ((List.range 2001).all fun u =>
        decide ((((Engine.start "a").run
          [(0, Event.setContent "b")]).at u).syncState
            ≠ SyncState.syncing)) = true := by
  refine ⟨rfl, rfl, rfl, ?_⟩
  decide

/-- C9 (amended): the transitions the code actually performs — `idle →
editing` on user input, keydown or paste; `editing → idle` when a settle
timeout fires; `applyExternalUpdate` (both the effect handler and the
deferred application) never changes the mode, so `syncing` is declared but
unreachable from the initial state; `applyExternalUpdate` arriving in
`editing` performs no transition. -/
theorem sync_state_machine_transitions (s : Engine) (t : Nat) (x c : String)
    (tr : List (Nat × Event)) :
    (handleEvent t s (Event.input x)).syncState = SyncState.editing ∧
    (handleEvent t s Event.keyDown).syncState = SyncState.editing ∧
    (handleEvent t s (Event.paste x)).syncState = SyncState.editing ∧
    (handleEvent t s (Event.setContent x)).syncState = s.syncState ∧
    (firePendingUpdate c s).syncState = s.syncState ∧
    (s.settleTimers.any (fun u => decide (u ≤ t)) = true →
      (s.at t).syncState = SyncState.idle) ∧
    (Engine.run (Engine.start c) tr).syncState ≠ SyncState.syncing := by
  refine ⟨rfl, rfl, rfl, handleEvent_setContent_syncState t s x,
    firePendingUpdate_syncState c s, ?_, ?_⟩
  · intro h
    show (flushTimers t s).syncState = _
    rw [flushTimers_syncState, h]
    simp
  · exact run_syncState_ne_syncing tr (Engine.start c)
      (fun hc => SyncState.noConfusion hc)

/-- Witness for amended C9 on `editingEngine` at `settleWindow` with a short
trace. -/
theorem sync_state_machine_transitions_witness :
    (handleEvent settleWindow editingEngine (Event.input "b")).syncState
      = SyncState.editing ∧
    (handleEvent settleWindow editingEngine Event.keyDown).syncState
      = SyncState.editing ∧
    (handleEvent settleWindow editingEngine (Event.paste "b")).syncState
      = SyncState.editing ∧
    (handleEvent settleWindow editingEngine (Event.setContent "b")).syncState
      = SyncState.editing ∧
    (firePendingUpdate "a" editingEngine).syncState = SyncState.editing ∧
    (editingEngine.at settleWindow).syncState = SyncState.idle ∧
    (Engine.run (Engine.start "a") [(0, Event.input "b")]).syncState
      ≠ SyncState.syncing := by
  have h := sync_state_machine_transitions editingEngine settleWindow "b" "a"
    [(0, Event.input "b")]
  exact ⟨h.1, h.2.1, h.2.2.1, h.2.2.2.1, h.2.2.2.2.1,
    h.2.2.2.2.2.1 (by decide), h.2.2.2.2.2.2⟩

/-- C10: `handleKeyDown` only sets the mode to `editing` and schedules no
return to `idle`; from an `editing` state with no pending settle timeout and
no pending update (the state after a bare keydown not followed by input or
paste), any sequence of external updates leaves the entire state unchanged —
the surface text is never updated — and the mode stays `editing` at every
later time. -/
theorem keyDown_stuck_editing (s : Engine) (t : Nat)
    (tr : List (Nat × Event)) :
    handleEvent t s Event.keyDown = { s with syncState := SyncState.editing } ∧
    (s.syncState = SyncState.editing → s.settleTimers = [] →
      s.pendingUpdate = none →
      (∀ e ∈ tr, ∃ c, e.2 = Event.setContent c) →
      Engine.run s tr = s ∧ ∀ u : Nat, s.at u = s) :=
  ⟨rfl, fun hmode htim hpend hall =>
    ⟨run_setContent_only_stuck tr s hmode htim hpend hall,
     fun u => flushTimers_id u s htim hpend⟩⟩

/-- Witness for C10: `stuckEngine` absorbs two external updates and is still
itself (mode `editing`, text `"a"`) at time 5000. -/
theorem keyDown_stuck_editing_witness :
    handleEvent 0 stuckEngine Event.keyDown
      = { stuckEngine with syncState := SyncState.editing } ∧
    Engine.run stuckEngine
      [(3, Event.setContent "b"), (9, Event.setContent "c")] = stuckEngine ∧
    stuckEngine.at 5000 = stuckEngine := by
  have hall : ∀ e ∈ [((3 : Nat), Event.setContent "b"),
      ((9 : Nat), Event.setContent "c")], ∃ c, e.2 = Event.setContent c := by
    intro e he
    rcases List.mem_cons.mp he with h | he2
    · exact ⟨"b", by rw [h]⟩
    · rcases List.mem_cons.mp he2 with h | he3
      · exact ⟨"c", by rw [h]⟩
      · exact (List.not_mem_nil e he3).elim
  have h := keyDown_stuck_editing stuckEngine 0
    [(3, Event.setContent "b"), (9, Event.setContent "c")]
  have h2 := h.2 rfl rfl rfl hall
  exact ⟨h.1, h2.1, h2.2 5000⟩
